import Mathlib

/-!
Verification of the subdomain-gathering engine: a shallow embedding of the
source adapters (HackerTarget, C99, ThreatCrowd, ThreatMiner), the CLI
configuration pipeline (`ParsedArgs::new`, `read_input`, the main output
loop) and — modelled from the specification where the library crate's code
is not part of the file set — the post-processor filter and the runner's
source registry.

Rust strings are embedded as Lean `String`s, operated on through their
character lists; machine integers that the claims touch (`usize`
concurrency, `u64` timeout) are embedded as `Nat` (their parsed values are
small and no overflowing arithmetic is performed on them). Fallible
operations return `Except`; the mpsc channel is embedded by recording the
batches an adapter attempts to send and, separately, the batches actually
delivered to a live receiver.
-/

namespace SubGather

/-! ## Character-list embedding of the Rust string operations -/

/-- Embeds Rust `str::split(sep)` on a character list: the fragments between
occurrences of `sep`.  Like Rust's `split`, the result is never empty (an
empty input yields one empty fragment). -/
def splitOnChar (sep : Char) : List Char → List (List Char)
  | [] => [[]]
  | c :: cs =>
    match splitOnChar sep cs with
    | [] => [[]]
    | f :: rest => if c = sep then [] :: f :: rest else (c :: f) :: rest

/-- Removes one trailing carriage return, as Rust `str::lines` does to each
line that was terminated by `"\r\n"`. -/
def stripCR (l : List Char) : List Char :=
  if l.getLast? = some '\r' then l.dropLast else l

/-- Helper for `rustLines`: every fragment but the last was followed by a
newline, so one trailing `'\r'` is stripped from it; a final empty fragment
(produced by a trailing newline, or by an empty input) yields no line. -/
def rustLinesAux : List (List Char) → List (List Char)
  | [] => []
  | [last] => if last = [] then [] else [last]
  | p :: rest => stripCR p :: rustLinesAux rest

/-- Embeds Rust `str::lines`: split at `'\n'`, strip a `'\r'` left at the end
of a line by a `"\r\n"` terminator, and do not produce a final empty line
for a trailing terminator. -/
def rustLines (s : String) : List String :=
  (rustLinesAux (splitOnChar '\n' s.data)).map (fun cs => String.mk cs)

theorem splitOnChar_ne_nil (sep : Char) : ∀ cs : List Char, splitOnChar sep cs ≠ []
  | [] => by simp [splitOnChar]
  | c :: cs => by
    simp only [splitOnChar]
    cases h : splitOnChar sep cs with
    | nil => simp
    | cons f rest => by_cases hc : c = sep <;> simp [hc]

/-- The first fragment of a split is everything before the first separator
(the whole input when the separator does not occur). -/
theorem splitOnChar_headD (sep : Char) :
    ∀ cs : List Char,
      (splitOnChar sep cs).headD [] = cs.takeWhile (fun c => !(c == sep))
  | [] => rfl
  | c :: cs => by
    have ih := splitOnChar_headD sep cs
    simp only [splitOnChar]
    cases h : splitOnChar sep cs with
    | nil => exact absurd h (splitOnChar_ne_nil sep cs)
    | cons f rest =>
      rw [h] at ih
      simp only [List.headD_cons] at ih
      by_cases hc : c = sep
      · simp [hc, List.takeWhile_cons]
      · simp [hc, List.takeWhile_cons, ih]

/-! ## Error model and channel effect of one adapter invocation -/

/-- The error variants of `sub::error::SubError` that the adapters under
`src/sources` construct: a named source failure ("no usable data"), a
missing-credential failure carrying the unset key names, and the variant a
`?` on a failed network/parse operation converts into. -/
inductive SubError where
  | SourceError (source : String)
  | UnsetKeys (keys : List String)
  | ReqwestError
  deriving DecidableEq, Repr

/-- The observable outcome of one adapter `run` invocation: its returned
`Result`, how many network requests it performed, the batches it attempted
to send on the mpsc channel, and the batches actually delivered (none when
the receiving half was already dropped — the adapters discard the send
result, `let _ = tx.send(..)`). -/
structure RunEffect where
  result : Except SubError Unit
  requests : Nat
  sent : List (List String)
  delivered : List (List String)
  deriving Repr

/-! ## HackerTarget adapter (src/sources/hackertarget.rs) -/

/-- The sentinel body the HackerTarget API returns in place of results. -/
def HackerTarget.apiError : String := "error check your search parameter"

/-- Embeds `HTResult::subdomains`: for each line of the body, the text before
the first comma (`s.split(',').collect::<Vec<&str>>()[0]`); the `[0]` index
is safe because a split is never empty (`splitOnChar_ne_nil`), which the
embedding reflects by using `headD`. -/
def HackerTarget.subdomains (items : String) : List String :=
  (rustLines items).map (fun s => String.mk ((splitOnChar ',' s.data).headD []))

/-- Embeds `HackerTarget::run` for one host.  `resp` is the outcome of
`client.get(uri).send().await?.text().await?`: `.error` when the network
fetch fails (the `?` converts it into `ReqwestError`), `.ok body` with the
text body otherwise.  `recvAlive` tells whether the receiving half of the
channel is still live. -/
def HackerTarget.run (resp : Except Unit String) (recvAlive : Bool) : RunEffect :=
  match resp with
  | .error _ => ⟨.error .ReqwestError, 1, [], []⟩
  | .ok body =>
    if body ≠ HackerTarget.apiError then
      let subs := HackerTarget.subdomains body
      ⟨.ok (), 1, [subs], if recvAlive then [subs] else []⟩
    else
      ⟨.error (.SourceError "HackerTarget"), 1, [], []⟩

/-! ## C99 adapter (src/sources/c99.rs) -/

/-- One element of the C99 JSON `subdomains` array. -/
structure C99Item where
  subdomain : String
  deriving Repr

/-- The C99 JSON payload: a nullable list of items. -/
structure C99Result where
  subdomains : Option (List C99Item)
  deriving Repr

/-- Embeds the `IntoSubdomain` impl for `C99Result`:
`self.subdomains.iter().flatten().map(|s| s.subdomain.to_string()).collect()`. -/
def C99Result.intoSubdomains (r : C99Result) : List String :=
  (r.subdomains.getD []).map (fun i => i.subdomain)

/-- Embeds `Creds::read_creds`: look the `C99_KEY` credential up in the
process environment (`env`), at the moment of the call. -/
def Creds.read_creds (env : String → Option String) : Except SubError String :=
  match env "C99_KEY" with
  | some key => .ok key
  | none => .error (.UnsetKeys ["C99_KEY"])

/-- The network outcome a C99 invocation observes: the request itself can
fail, or a response arrives with an HTTP status and — consulted only when
the status is a success — the JSON parse outcome of its body. -/
inductive C99Resp where
  | netError
  | response (statusSuccess : Bool) (body : Except Unit C99Result)

/-- Embeds `C99::run` for one host: resolve the credential from the
environment first (no request at all when it is unset), then fetch; on a
success status parse the JSON (a parse failure propagates through `?`), and
send the batch only when it is non-empty, otherwise fail with a
`SourceError`. -/
def C99.run (env : String → Option String) (resp : C99Resp) (recvAlive : Bool) :
    RunEffect :=
  match Creds.read_creds env with
  | .error e => ⟨.error e, 0, [], []⟩
  | .ok _key =>
    match resp with
    | .netError => ⟨.error .ReqwestError, 1, [], []⟩
    | .response statusSuccess body =>
      if statusSuccess then
        match body with
        | .error _ => ⟨.error .ReqwestError, 1, [], []⟩
        | .ok r =>
          let subs := r.intoSubdomains
          if subs ≠ [] then
            ⟨.ok (), 1, [subs], if recvAlive then [subs] else []⟩
          else
            ⟨.error (.SourceError "C99"), 1, [], []⟩
      else
        ⟨.error (.SourceError "C99"), 1, [], []⟩

/-! ## ThreatCrowd adapter (src/sources/threatcrowd.rs) -/

/-- The ThreatCrowd JSON payload: a nullable list of subdomain strings. -/
structure TCResult where
  subdomains : Option (List String)
  deriving Repr

/-- Embeds the `IntoSubdomain` impl for `ThreatCrowdResult`:
`self.subdomains.iter().flatten().map(|s| s.to_owned()).collect()`. -/
def TCResult.intoSubdomains (r : TCResult) : List String :=
  r.subdomains.getD []

/-- The outcome of `client.get(uri).send().await?.json().await?` for
ThreatCrowd: a network or JSON-parse failure (both propagate through `?`),
or the parsed payload. -/
inductive TCResp where
  | netError
  | parsed (r : TCResult)

/-- Embeds `ThreatCrowd::run` for one host: fetch and parse, send the batch
only when it is non-empty, otherwise fail with a `SourceError`. -/
def ThreatCrowd.run (resp : TCResp) (recvAlive : Bool) : RunEffect :=
  match resp with
  | .netError => ⟨.error .ReqwestError, 1, [], []⟩
  | .parsed r =>
    let subs := r.intoSubdomains
    if subs ≠ [] then
      ⟨.ok (), 1, [subs], if recvAlive then [subs] else []⟩
    else
      ⟨.error (.SourceError "ThreatCrowd"), 1, [], []⟩

/-! ## ThreatMiner adapter (src/sources/threatminer.rs) -/

/-- The ThreatMiner JSON payload: a list of result strings. -/
structure TMResult where
  results : List String
  deriving Repr

/-- Embeds the `IntoSubdomain` impl for `ThreatminerResult`:
`self.results.iter().map(|s| s.to_owned()).collect()`. -/
def TMResult.intoSubdomains (r : TMResult) : List String :=
  r.results

/-- The outcome of the ThreatMiner fetch-and-parse: a network or JSON-parse
failure, or a parsed `Option<ThreatminerResult>` (the payload is nullable). -/
inductive TMResp where
  | netError
  | parsed (r : Option TMResult)

/-- Embeds `ThreatMiner::run` for one host: fetch and parse; send the batch
only when the payload is present and non-empty, otherwise fail with a
`SourceError`. -/
def ThreatMiner.run (resp : TMResp) (recvAlive : Bool) : RunEffect :=
  match resp with
  | .netError => ⟨.error .ReqwestError, 1, [], []⟩
  | .parsed o =>
    match o with
    | some data =>
      let subs := data.intoSubdomains
      if subs ≠ [] then
        ⟨.ok (), 1, [subs], if recvAlive then [subs] else []⟩
      else
        ⟨.error (.SourceError "ThreatMiner"), 1, [], []⟩
    | none => ⟨.error (.SourceError "ThreatMiner"), 1, [], []⟩

/-! ## Post-processor (modelled from the spec) -/

/-- Modelled from the spec: the suffix-equality test of the post-processor's
any-root policy ("keep a discovered name iff it is suffix-equal to (ends
with / is contained within) at least one root in the filter set"); the
`PostProcessor` implementation itself (the library crate's `lib.rs`) is not
among the repository files provided. -/
def suffixEqual (name root : String) : Bool :=
  root.data.isSuffixOf name.data

/-- Modelled from the spec: the `PostProcessor` with its two mutually
exclusive filter policies, selected once per run (`any_root` vs
`any_subdomain`); the implementation (`lib.rs`) is not among the repository
files provided. -/
inductive PostProcessor where
  | anyRoot (roots : List String)
  | anySubdomain (roots : List String)

/-- Modelled from the spec: whether the post-processor keeps a discovered
name.  any-root keeps a name iff it is suffix-equal to at least one root;
any-subdomain (strict) keeps a name iff it is a proper subdomain of some
root — suffix-equal to it but not merely an exact match. -/
def PostProcessor.keep : PostProcessor → String → Bool
  | .anyRoot roots, name => roots.any (fun r => suffixEqual name r)
  | .anySubdomain roots, name => roots.any (fun r => suffixEqual name r && name != r)

/-- Modelled from the spec: the `CleanExt::clean` iterator adaptor applies
the post-processor filter to each incoming batch independently, with no
cross-batch state and no deduplication of its own. -/
def cleanBatch (p : PostProcessor) (batch : List String) : List String :=
  batch.filter (fun r => p.keep r)

/-! ## The output loop of `main` (src/bin/main.rs, lines 19-36) -/

/-- Embeds `HashSet::insert` on the model of the results set as a
duplicate-free list (insertion order is kept only to make the model
executable; the set's iteration order is implementation-defined). -/
def insertResult (results : List String) (r : String) : List String :=
  if r ∈ results then results else results ++ [r]

/-- The state of `main`'s consumption loop: the lines printed while the
stream was still being consumed, and the `results` set. -/
structure LoopState where
  printed : List String
  results : List String
  deriving Repr

/-- Embeds one iteration of `main`'s `while let` loop on a batch `v`: each
name the cleaner keeps is printed immediately in flush mode and inserted
into the results set otherwise. -/
def consumeBatch (p : PostProcessor) (flush : Bool) (st : LoopState)
    (v : List String) : LoopState :=
  (cleanBatch p v).foldl
    (fun st r =>
      if flush then { st with printed := st.printed ++ [r] }
      else { st with results := insertResult st.results r })
    st

/-- Embeds `main`'s whole consumption of the result stream, batch by batch,
starting from an empty results set. -/
def consumeStream (p : PostProcessor) (flush : Bool)
    (batches : List (List String)) : LoopState :=
  batches.foldl (consumeBatch p flush) ⟨[], []⟩

/-- The full stdout line sequence of `main`: in flush mode whatever the loop
printed; in buffered mode the loop prints nothing and the results set is
printed only after the stream is exhausted. -/
def mainOutput (p : PostProcessor) (flush : Bool)
    (batches : List (List String)) : List String :=
  let st := consumeStream p flush batches
  if flush then st.printed else st.printed ++ st.results

/-! ## Runner registry and task set (registry modelled from the spec) -/

/-- Modelled from the spec: the names of the "free" sources usable without
credentials (the adapters under `src/sources` other than C99). -/
def freeSourceNames : List String := ["HackerTarget", "ThreatCrowd", "ThreatMiner"]

/-- Modelled from the spec: the names of the credential-requiring sources
(C99 looks its key up in the environment). -/
def keyedSourceNames : List String := ["C99"]

/-- Modelled from the spec: the `Runner` builder's configuration — the
concurrency limit, the per-request timeout and the enabled source set; the
implementation (`lib.rs`) is not among the repository files provided. -/
structure Runner where
  concurrency : Nat
  timeout : Nat
  sources : List String
  deriving Repr

/-- Modelled from the spec: `Runner::default()`, the empty configuration the
builder chain starts from. -/
def Runner.new : Runner := ⟨0, 0, []⟩

/-- Modelled from the spec: the `.concurrency(n)` builder step. -/
def Runner.setConcurrency (r : Runner) (n : Nat) : Runner :=
  { r with concurrency := n }

/-- Modelled from the spec: the `.timeout(t)` builder step. -/
def Runner.setTimeout (r : Runner) (t : Nat) : Runner :=
  { r with timeout := t }

/-- Modelled from the spec: `.free_sources()` enables the free source set. -/
def Runner.addFreeSources (r : Runner) : Runner :=
  { r with sources := r.sources ++ freeSourceNames }

/-- Modelled from the spec: `.all_sources()` additionally enables the
credential-requiring sources. -/
def Runner.addAllSources (r : Runner) : Runner :=
  { r with sources := r.sources ++ keyedSourceNames }

/-- Modelled from the spec: `.exclude(names)` removes the excluded names
from the enabled source set. -/
def Runner.excludeNames (r : Runner) (ex : List String) : Runner :=
  { r with sources := r.sources.filter (fun s => !ex.contains s) }

/-- Embeds the runner-construction chain of `ParsedArgs::new` (src/bin/main.rs,
lines 83-90): free sources and the exclusions always, and when the `all`
flag is present the credentialed sources followed by the exclusions again. -/
def buildRunner (maxConcurrent timeout : Nat) (allSources : Bool)
    (excluded : List String) : Runner :=
  let runner := ((((Runner.new).setConcurrency maxConcurrent).setTimeout
    timeout).addFreeSources).excludeNames excluded
  if allSources then (runner.addAllSources).excludeNames excluded else runner

/-- Modelled from the spec: the scheduler's task set is the full cross
product of the deduplicated roots with the enabled sources. -/
def taskSet (hosts : List String) (r : Runner) : List (String × String) :=
  hosts.flatMap (fun h => r.sources.map (fun s => (h, s)))

/-! ## Input selection and configuration (src/bin/main.rs, lines 46-117) -/

/-- Embeds the loop of `read_input`: each line of the reader is inserted
into a `HashSet`, modelled as a duplicate-free list. -/
def linesToSet (lines : List String) : List String :=
  lines.foldl insertResult []

/-- Embeds the input-selection branch of `ParsedArgs::new` (src/bin/main.rs,
lines 63-70): the `file` flag is tested first, then the `domain` flag, and
otherwise standard input is read. -/
def selectHosts (filePresent domainPresent : Bool) (input : String)
    (fileLines stdinLines : List String) : List String :=
  if filePresent then linesToSet fileLines
  else if domainPresent then [input]
  else linesToSet stdinLines

/-- The configuration-time failures of `ParsedArgs::new` and `read_input`:
an unparsable `concurrency` value, an unparsable `timeout` value, and an
input file that cannot be opened. -/
inductive ConfigError where
  | badConcurrency
  | badTimeout
  | unreadableFile (path : String)
  deriving DecidableEq, Repr

/-- Embeds the `ParsedArgs` struct `main` destructures. -/
structure ParsedArgs where
  runner : Runner
  cleaner : PostProcessor
  flush : Bool
  hosts : List String

/-- The clap matches that `ParsedArgs::new` consults, together with the
process's input environment: whether each flag is present, the raw values,
whether the named input file can be opened, and the lines a successful read
of the file or of standard input yields. -/
structure CliMatches where
  concurrencyStr : String
  timeoutStr : String
  filePresent : Bool
  domainPresent : Bool
  input : String
  fileReadable : Bool
  fileLines : List String
  stdinLines : List String
  excluded : List String
  subsOnly : Bool
  allSources : Bool
  flush : Bool

/-- Embeds `ParsedArgs::new` (src/bin/main.rs, lines 46-98): parse the
numeric flags (each `?` aborts with a configuration error), resolve the
input selection (an unopenable file aborts), then build the cleaner from
the `subs-only` flag and the runner from the mode and exclusions. -/
def ParsedArgs.new (m : CliMatches) : Except ConfigError ParsedArgs :=
  match m.concurrencyStr.toNat? with
  | none => .error .badConcurrency
  | some mc =>
    match m.timeoutStr.toNat? with
    | none => .error .badTimeout
    | some t =>
      if m.filePresent ∧ ¬m.fileReadable then .error (.unreadableFile m.input)
      else
        let hosts := selectHosts m.filePresent m.domainPresent m.input
          m.fileLines m.stdinLines
        let cleaner := if m.subsOnly then PostProcessor.anySubdomain hosts
          else PostProcessor.anyRoot hosts
        .ok ⟨buildRunner mc t m.allSources m.excluded, cleaner, m.flush, hosts⟩

/-- Embeds `main` end to end: a configuration failure aborts before the
runner is started (no task set exists); otherwise the runner's task set is
scheduled, the stream of batches the surviving tasks produced is consumed,
and the process completes successfully.  Per the spec, `run` itself fails
only on invalid configuration, so after a successful parse the run always
completes with whatever partial results accumulated. -/
def mainRun (m : CliMatches) (batches : List (List String)) :
    Except ConfigError (List (String × String) × List String) :=
  match ParsedArgs.new m with
  | .error e => .error e
  | .ok pa => .ok (taskSet pa.hosts pa.runner, mainOutput pa.cleaner pa.flush batches)

/-! ## Theorems for the claims -/

/-- C2, counterexample: the claim states that with the any-root policy and
filter set {"example.com"} the candidate "notexample.com" is rejected, and
at the same time that a name is kept iff it is suffix-equal to some root;
but "notexample.com" is suffix-equal to "example.com", so under the
spec's own any-root definition it is kept, not rejected. -/
theorem C2_counterexample :
    (PostProcessor.anyRoot ["example.com"]).keep "notexample.com" = true ∧
    (((PostProcessor.anyRoot ["example.com"]).keep "notexample.com" = false) = False) := by
  exact ⟨by decide, eq_false (by decide)⟩

/-- C2 (amended): with the any-root policy a candidate name is kept iff it
is suffix-equal to at least one root in the filter set; with filter set
{"example.com"} the candidates "api.example.com" and "example.com" are
kept, and so is "notexample.com" (it ends with "example.com"). -/
theorem C2_any_root_filter (roots : List String) (name : String) :
    ((PostProcessor.anyRoot roots).keep name = true ↔
      ∃ r ∈ roots, ∃ t, t ++ r.data = name.data) ∧
    (PostProcessor.anyRoot ["example.com"]).keep "api.example.com" = true ∧
    (PostProcessor.anyRoot ["example.com"]).keep "example.com" = true ∧
    (PostProcessor.anyRoot ["example.com"]).keep "notexample.com" = true := by
  refine ⟨?_, by decide, by decide, by decide⟩
  simp only [PostProcessor.keep, suffixEqual, List.any_eq_true,
    List.isSuffixOf_iff_suffix]
  exact Iff.rfl

/-- C3: with the strict-subdomain policy a candidate name is kept iff it is
a proper subdomain of some root — suffix-equal to the root but not an
exact match; with filter set {"example.com"} the candidate
"www.example.com" is kept and "example.com" itself is rejected. -/
theorem C3_strict_subdomain_filter (roots : List String) (name : String) :
    ((PostProcessor.anySubdomain roots).keep name = true ↔
      ∃ r ∈ roots, (∃ t, t ++ r.data = name.data) ∧ name ≠ r) ∧
    (PostProcessor.anySubdomain ["example.com"]).keep "www.example.com" = true ∧
    (PostProcessor.anySubdomain ["example.com"]).keep "example.com" = false := by
  refine ⟨?_, by decide, by decide⟩
  simp only [PostProcessor.keep, List.any_eq_true, Bool.and_eq_true, suffixEqual,
    List.isSuffixOf_iff_suffix, bne_iff_ne, ne_eq]
  exact Iff.rfl

/-- A source name removed by `.exclude` is not among the enabled sources. -/
theorem not_mem_excludeNames_sources {r : Runner} {ex : List String} {s : String}
    (hs : s ∈ ex) : s ∉ (r.excludeNames ex).sources := by
  simp only [Runner.excludeNames, List.mem_filter]
  rintro ⟨-, hc⟩
  rw [Bool.not_eq_true'] at hc
  have hf : List.elem s ex = false := hc
  rw [List.elem_eq_true_of_mem hs] at hf
  exact Bool.noConfusion hf

/-- C5: a source name listed in the exclusion set contributes no tasks to
the host×source cross product, in the free-only mode and equally in the
mode that also adds the credential-requiring sources (the construction in
`ParsedArgs::new` re-applies the exclusions after `.all_sources()`). -/
theorem C5_excluded_source_no_tasks (mc t : Nat) (allSources : Bool)
    (excluded hosts : List String) (s : String) (hs : s ∈ excluded) :
    ∀ h, (h, s) ∉ taskSet hosts (buildRunner mc t allSources excluded) := by
  intro h hmem
  simp only [taskSet, List.mem_flatMap, List.mem_map] at hmem
  obtain ⟨h', -, s', hs', heq⟩ := hmem
  have hss : s' = s := congrArg Prod.snd heq
  have hno : s ∉ (buildRunner mc t allSources excluded).sources := by
    unfold buildRunner
    cases allSources
    · exact not_mem_excludeNames_sources hs
    · exact not_mem_excludeNames_sources hs
  exact hno (hss ▸ hs')

/-- C5, witness: with "C99" excluded and the all-sources mode requested, no
task pairs a host with C99. -/
theorem C5_witness :
    ((("example.com", "C99") ∈
      taskSet ["example.com"] (buildRunner 200 15 true ["C99"])) = False) :=
  eq_false
    (C5_excluded_source_no_tasks 200 15 true ["C99"] ["example.com"] "C99"
      (by decide) "example.com")

/-- C6, counterexample: the claim states that when both the domain flag and
the file flag are present the single positional domain wins; but
`ParsedArgs::new` tests the `file` flag first, so the hosts are read from
the file and the positional value is treated as the file path. -/
theorem C6_counterexample :
    selectHosts true true "single.com" ["a.com", "b.com"] [] = ["a.com", "b.com"] ∧
    ((selectHosts true true "single.com" ["a.com", "b.com"] [] = ["single.com"]) = False) := by
  exact ⟨by decide, eq_false (by decide)⟩

/-- C6 (amended): the input selections resolve with precedence file path >
explicit single domain > standard input: when the file flag is present the
named file is read even when the domain flag is also present; otherwise the
single positional domain is used when the domain flag is present; otherwise
hosts are read from standard input. -/
theorem C6_amended_precedence (fp dp : Bool) (input : String)
    (fileLines stdinLines : List String) :
    (fp = true → selectHosts fp dp input fileLines stdinLines = linesToSet fileLines) ∧
    (fp = false → dp = true → selectHosts fp dp input fileLines stdinLines = [input]) ∧
    (fp = false → dp = false →
      selectHosts fp dp input fileLines stdinLines = linesToSet stdinLines) := by
  cases fp <;> cases dp <;> simp [selectHosts]

/-- C7: `C99::run` resolves the `C99_KEY` credential from the environment at
invocation time (the embedding's `run` consults `env`; the constructed
`C99` value holds only the network client); when the credential is absent
it returns the `UnsetKeys` missing-credential failure for that single task,
performs no network request, and sends nothing on the channel. -/
theorem C7_c99_missing_credential (env : String → Option String) (resp : C99Resp)
    (recvAlive : Bool) (h : env "C99_KEY" = none) :
    C99.run env resp recvAlive =
      ⟨.error (.UnsetKeys ["C99_KEY"]), 0, [], []⟩ := by
  simp [C99.run, Creds.read_creds, h]

/-- C7, witness: in an environment with no `C99_KEY`, the C99 task fails
with `UnsetKeys`, zero requests, nothing sent. -/
theorem C7_witness :
    C99.run (fun _ => none) C99Resp.netError true =
      ⟨.error (.UnsetKeys ["C99_KEY"]), 0, [], []⟩ :=
  C7_c99_missing_credential (fun _ => none) C99Resp.netError true rfl

/-! ### Support lemmas for the output loop -/

theorem mem_insertResult {x r : String} {s : List String} :
    x ∈ insertResult s r ↔ x ∈ s ∨ x = r := by
  unfold insertResult
  by_cases h : r ∈ s
  · rw [if_pos h]
    exact ⟨Or.inl, fun hx => hx.elim id (fun he => he ▸ h)⟩
  · rw [if_neg h]
    simp

theorem nodup_insertResult {s : List String} (h : s.Nodup) (r : String) :
    (insertResult s r).Nodup := by
  unfold insertResult
  by_cases hr : r ∈ s
  · rw [if_pos hr]; exact h
  · rw [if_neg hr]
    simp [List.nodup_append, h, hr]

theorem mem_foldl_insertResult :
    ∀ (l s : List String) (x : String),
      x ∈ l.foldl insertResult s ↔ x ∈ s ∨ x ∈ l
  | [], s, x => by simp
  | r :: l, s, x => by
    rw [List.foldl_cons, mem_foldl_insertResult l]
    simp only [mem_insertResult, List.mem_cons]
    tauto

theorem nodup_foldl_insertResult :
    ∀ (l s : List String), s.Nodup → (l.foldl insertResult s).Nodup
  | [], _, h => h
  | r :: l, _, h =>
    List.foldl_cons .. ▸ nodup_foldl_insertResult l _ (nodup_insertResult h r)

theorem foldl_printer :
    ∀ (l : List String) (st : LoopState),
      l.foldl (fun st r => { st with printed := st.printed ++ [r] }) st
        = ⟨st.printed ++ l, st.results⟩
  | [], st => by simp
  | r :: l, st => by
    rw [List.foldl_cons, foldl_printer l]
    simp

theorem foldl_inserter :
    ∀ (l : List String) (st : LoopState),
      l.foldl (fun st r => { st with results := insertResult st.results r }) st
        = ⟨st.printed, l.foldl insertResult st.results⟩
  | [], st => by simp
  | r :: l, st => by
    rw [List.foldl_cons, foldl_inserter l, List.foldl_cons]

/-- In flush mode one loop iteration appends the cleaned batch to the
printed lines and leaves the results set alone. -/
theorem consumeBatch_flush (p : PostProcessor) (st : LoopState) (v : List String) :
    consumeBatch p true st v = ⟨st.printed ++ cleanBatch p v, st.results⟩ := by
  unfold consumeBatch
  simp only [if_true]
  exact foldl_printer _ _

/-- In buffered mode one loop iteration prints nothing and inserts the
cleaned batch into the results set. -/
theorem consumeBatch_buffered (p : PostProcessor) (st : LoopState) (v : List String) :
    consumeBatch p false st v
      = ⟨st.printed, (cleanBatch p v).foldl insertResult st.results⟩ := by
  unfold consumeBatch
  simp only [Bool.false_eq_true, if_false]
  exact foldl_inserter _ _

theorem foldl_consumeBatch_flush (p : PostProcessor) :
    ∀ (batches : List (List String)) (st : LoopState),
      batches.foldl (consumeBatch p true) st
        = ⟨st.printed ++ batches.flatMap (cleanBatch p), st.results⟩
  | [], st => by simp
  | v :: batches, st => by
    rw [List.foldl_cons, consumeBatch_flush, foldl_consumeBatch_flush p batches]
    simp

theorem foldl_consumeBatch_buffered (p : PostProcessor) :
    ∀ (batches : List (List String)) (st : LoopState),
      batches.foldl (consumeBatch p false) st
        = ⟨st.printed,
            (batches.flatMap (cleanBatch p)).foldl insertResult st.results⟩
  | [], st => by simp
  | v :: batches, st => by
    rw [List.foldl_cons, consumeBatch_buffered, foldl_consumeBatch_buffered p batches]
    simp [List.foldl_append]

/-- C4: in buffered mode nothing is printed while the stream is still being
consumed, and the final output lists each distinct filtered name exactly
once (it is duplicate-free, and it holds a name iff some batch contributed
it) no matter how many times the name occurs across batches; in flush mode
the output is exactly the concatenation of the cleaned batches, one line
per occurrence — so a single batch holding "a.example.com" twice yields two
output lines in flush mode and exactly one in buffered mode. -/
theorem C4_output_modes (p : PostProcessor) (batches : List (List String)) :
    (consumeStream p false batches).printed = [] ∧
    (mainOutput p false batches).Nodup ∧
    (∀ x : String,
      x ∈ mainOutput p false batches ↔ x ∈ batches.flatMap (cleanBatch p)) ∧
    mainOutput p true batches = batches.flatMap (cleanBatch p) ∧
    mainOutput (PostProcessor.anyRoot ["example.com"]) true
      [["a.example.com", "a.example.com"]] = ["a.example.com", "a.example.com"] ∧
    mainOutput (PostProcessor.anyRoot ["example.com"]) false
      [["a.example.com", "a.example.com"]] = ["a.example.com"] := by
  have hbuf := foldl_consumeBatch_buffered p batches ⟨[], []⟩
  have hout : mainOutput p false batches
      = (batches.flatMap (cleanBatch p)).foldl insertResult [] := by
    simp only [mainOutput, consumeStream, hbuf, Bool.false_eq_true, if_false]
    simp
  refine ⟨?_, ?_, ?_, ?_, by decide, by decide⟩
  · rw [consumeStream, hbuf]
  · rw [hout]
    exact nodup_foldl_insertResult _ [] List.nodup_nil
  · intro x
    rw [hout, mem_foldl_insertResult]
    simp
  · simp only [mainOutput, consumeStream, foldl_consumeBatch_flush p batches,
      if_true]
    simp

/-! ### C1: empty result sets -/

/-- C1, counterexample: the claim states that every adapter, given a
well-formed response with no discovered names, fails with a source error
and sends no batch; but `HackerTarget::run`, given the well-formed empty
body (which yields zero lines, hence zero names, and is not the API error
sentinel), sends an empty batch on the channel and returns Ok. -/
theorem C1_counterexample :
    HackerTarget.subdomains "" = [] ∧
    (HackerTarget.run (.ok "") true).result = .ok () ∧
    (HackerTarget.run (.ok "") true).sent = [[]] :=
  ⟨rfl, rfl, rfl⟩

/-- C1 (amended): for C99, ThreatCrowd and ThreatMiner a well-formed
response with no discovered names yields the `SourceError` failure — for
C99 the very outcome a provider-error (non-success HTTP status) response
yields — and nothing is sent on the channel; for HackerTarget this holds
for the API error sentinel response, but the well-formed empty body (the
one non-sentinel body with no names) instead returns Ok and sends an empty
batch. -/
theorem C1_empty_results_amended (env : String → Option String) (key : String)
    (hk : env "C99_KEY" = some key)
    (r99 : C99Result) (h99 : r99.intoSubdomains = [])
    (rtc : TCResult) (htc : rtc.intoSubdomains = [])
    (rtm : TMResult) (htm : rtm.intoSubdomains = [])
    (recvAlive : Bool) (body : Except Unit C99Result) :
    C99.run env (.response true (.ok r99)) recvAlive
      = ⟨.error (.SourceError "C99"), 1, [], []⟩ ∧
    C99.run env (.response false body) recvAlive
      = ⟨.error (.SourceError "C99"), 1, [], []⟩ ∧
    ThreatCrowd.run (.parsed rtc) recvAlive
      = ⟨.error (.SourceError "ThreatCrowd"), 1, [], []⟩ ∧
    ThreatMiner.run (.parsed (some rtm)) recvAlive
      = ⟨.error (.SourceError "ThreatMiner"), 1, [], []⟩ ∧
    ThreatMiner.run (.parsed none) recvAlive
      = ⟨.error (.SourceError "ThreatMiner"), 1, [], []⟩ ∧
    HackerTarget.run (.ok HackerTarget.apiError) recvAlive
      = ⟨.error (.SourceError "HackerTarget"), 1, [], []⟩ ∧
    HackerTarget.run (.ok "") recvAlive
      = ⟨.ok (), 1, [[]], if recvAlive then [[]] else []⟩ := by
  refine ⟨?_, ?_, ?_, ?_, rfl, ?_, ?_⟩
  · simp [C99.run, Creds.read_creds, hk, h99]
  · simp [C99.run, Creds.read_creds, hk]
  · simp [ThreatCrowd.run, htc]
  · simp [ThreatMiner.run, htm]
  · simp [HackerTarget.run]
  · show HackerTarget.run (.ok "") recvAlive = _
    rfl

/-- C1, witness: a C99 success response whose subdomain list is empty fails
with the C99 `SourceError` and sends nothing. -/
theorem C1_witness :
    C99.run (fun _ => some "k") (.response true (.ok ⟨some []⟩)) true
      = ⟨.error (.SourceError "C99"), 1, [], []⟩ :=
  (C1_empty_results_amended (fun _ => some "k") "k" rfl ⟨some []⟩ rfl ⟨some []⟩ rfl
    ⟨[]⟩ rfl true (.error ())).1

/-! ### C8: configuration failures vs run completion -/

/-- C8: an unparsable concurrency flag, an unparsable timeout flag, or an
unopenable input file makes the program fail during configuration, before
any task exists (`mainRun` returns the configuration error and no task set
is built); absent such a failure the run completes successfully whatever
batches the tasks produced — in particular with the empty batch list that
an all-tasks-failed run yields. -/
theorem C8_config_errors_are_fatal (m : CliMatches) (batches : List (List String)) :
    (m.concurrencyStr.toNat? = none →
      mainRun m batches = .error .badConcurrency) ∧
    (m.concurrencyStr.toNat?.isSome = true → m.timeoutStr.toNat? = none →
      mainRun m batches = .error .badTimeout) ∧
    (m.concurrencyStr.toNat?.isSome = true → m.timeoutStr.toNat?.isSome = true →
      m.filePresent = true → m.fileReadable = false →
      mainRun m batches = .error (.unreadableFile m.input)) ∧
    (m.concurrencyStr.toNat?.isSome = true → m.timeoutStr.toNat?.isSome = true →
      (m.filePresent = true → m.fileReadable = true) →
      (mainRun m batches).isOk = true) := by
  refine ⟨?_, ?_, ?_, ?_⟩
  · intro h
    simp [mainRun, ParsedArgs.new, h]
  · intro h1 h2
    obtain ⟨mc, hmc⟩ := Option.isSome_iff_exists.mp h1
    simp [mainRun, ParsedArgs.new, hmc, h2]
  · intro h1 h2 h3 h4
    obtain ⟨mc, hmc⟩ := Option.isSome_iff_exists.mp h1
    obtain ⟨t, ht⟩ := Option.isSome_iff_exists.mp h2
    simp [mainRun, ParsedArgs.new, hmc, ht, h3, h4]
  · intro h1 h2 h3
    obtain ⟨mc, hmc⟩ := Option.isSome_iff_exists.mp h1
    obtain ⟨t, ht⟩ := Option.isSome_iff_exists.mp h2
    have hcond : ¬(m.filePresent = true ∧ m.fileReadable = false) := by
      rintro ⟨hf, hnr⟩
      rw [h3 hf] at hnr
      exact Bool.noConfusion hnr
    simp [mainRun, ParsedArgs.new, hmc, ht, hcond]
    rfl

/-! ### C9: a dropped receiver does not change the returned result -/

/-- C9: for every adapter and every observed response, dropping the
receiving half of the channel before the send changes nothing about the
adapter's returned result — the send result is discarded
(`let _ = tx.send(..)`), so the adapter returns the same Ok outcome it
returns when the send is delivered; the embedding is total, so no input
panics. -/
theorem C9_dropped_receiver_same_result (respHT : Except Unit String)
    (env : String → Option String) (respC99 : C99Resp) (respTC : TCResp)
    (respTM : TMResp) :
    (HackerTarget.run respHT false).result = (HackerTarget.run respHT true).result ∧
    (C99.run env respC99 false).result = (C99.run env respC99 true).result ∧
    (ThreatCrowd.run respTC false).result = (ThreatCrowd.run respTC true).result ∧
    (ThreatMiner.run respTM false).result = (ThreatMiner.run respTM true).result := by
  refine ⟨?_, ?_, ?_, ?_⟩
  · cases respHT with
    | error e => rfl
    | ok body =>
      by_cases hb : body ≠ HackerTarget.apiError <;>
        simp [HackerTarget.run, hb]
  · simp only [C99.run]
    cases hc : Creds.read_creds env with
    | error e => rfl
    | ok k =>
      cases respC99 with
      | netError => rfl
      | response ss body =>
        cases ss
        · rfl
        · cases body with
          | error e => rfl
          | ok r => by_cases hr : r.intoSubdomains = [] <;> simp [hr]
  · cases respTC with
    | netError => rfl
    | parsed r =>
      by_cases hr : r.intoSubdomains = [] <;> simp [ThreatCrowd.run, hr]
  · cases respTM with
    | netError => rfl
    | parsed o =>
      cases o with
      | none => rfl
      | some data =>
        by_cases hr : data.intoSubdomains = [] <;> simp [ThreatMiner.run, hr]

/-! ### C10: HackerTarget line parsing -/

/-- C10: for every body that is not the API error sentinel, the batch
HackerTarget sends holds, for each line of the body in line order, the text
of the line before its first comma (the whole line when it has no comma,
per `splitOnChar_headD`); the extraction's `[0]` index never panics because
a split is never empty. -/
theorem C10_hackertarget_first_field (body : String) (recvAlive : Bool)
    (h : body ≠ HackerTarget.apiError) :
    (HackerTarget.run (.ok body) recvAlive).sent
      = [(rustLines body).map
          (fun l => String.mk (l.data.takeWhile (fun c => !(c == ','))))] ∧
    (∀ l : List Char, splitOnChar ',' l ≠ []) := by
  refine ⟨?_, splitOnChar_ne_nil ','⟩
  simp only [HackerTarget.run]
  rw [if_pos h]
  show [HackerTarget.subdomains body] = _
  unfold HackerTarget.subdomains
  congr 1
  exact List.map_congr_left (fun l _ => congrArg String.mk (splitOnChar_headD ',' l.data))

/-- C10, witness: a two-line body with one comma-bearing line yields the
per-line first fields, in line order. -/
theorem C10_witness :
    (HackerTarget.run (.ok "a.example.com,1.0.0.1\nb.example.com") true).sent
      = [(rustLines "a.example.com,1.0.0.1\nb.example.com").map
          (fun l => String.mk (l.data.takeWhile (fun c => !(c == ','))))] :=
  (C10_hackertarget_first_field "a.example.com,1.0.0.1\nb.example.com" true
    (by decide)).1

end SubGather
